import Mathlib

/-!
# SafeTravels safety-report ingestion: a verification development

Shallow embedding of the anonymous safety-report subsystem of the
SafeTravels app (`safe-travels-backend/data/safetyReports.js` and the
client-side checks of `components/SafetyReportModal.js`), together with
proofs about its claimed properties.

Modelling conventions:
* Geographic coordinates and safety scores are JavaScript numbers used only
  through order comparisons and pass-through; they are modelled as `Rat`
  (coordinates) and `Int` (score).
* `new Date().toISOString()` produces a fixed-width string whose
  lexicographic order agrees with time order, and `getReports` compares
  such strings with `>=`/`<=`; timestamps are therefore modelled as
  milliseconds since the epoch (`Nat`), with `≤` standing for the string
  comparison on the corresponding ISO strings.
* The durable medium (the `safetyReports.json` file) is modelled by the
  `Medium` type: absent file, file whose read throws, file whose contents
  fail to `JSON.parse`, or a well-formed stored array of reports.
  `JSON.stringify`/`JSON.parse` round-trip the plain report records, so a
  well-formed file is modelled directly by the record list it denotes.
* Effects (the clock, `Math.random`, filesystem write success) are passed
  as explicit parameters.
-/

namespace SafeTravels

/-- GeoJSON point as built by `createReport`:
`{ type: 'Point', coordinates: [longitude, latitude] }`. -/
structure Location where
  type : String
  coordinates : Rat × Rat
  deriving Repr, DecidableEq

/-- The record shape constructed by `createReport`
(`safetyReports.js`, lines 91–101). -/
structure SafetyReport where
  _id : String
  location : Location
  safetyScore : Int
  tags : List String
  comment : String
  timestamp : Nat
  deriving Repr, DecidableEq

/-- Input to `createReport` (`reportData`): the fields the route hands to
the store.  `tags` and `comment` may be missing (`undefined`), which the
source defaults with `|| []` and `|| ''`. -/
structure ReportData where
  latitude : Rat
  longitude : Rat
  safetyScore : Int
  tags : Option (List String)
  comment : Option String
  deriving Repr, DecidableEq

/-- State of the durable medium (the `safetyReports.json` file). -/
inductive Medium where
  /-- `fs.existsSync` returns false: no file. -/
  | absent
  /-- the file exists but `fs.readFileSync` throws. -/
  | unreadable
  /-- the file exists and reads, but `JSON.parse` throws. -/
  | corrupt
  /-- the file holds a well-formed JSON array of report records. -/
  | stored (reports : List SafetyReport)
  deriving Repr, DecidableEq

/-- Outcome of the `fs.writeFileSync` call inside `saveReports`: it either
succeeds or throws before modifying the file. -/
inductive FsWrite where
  | ok
  | err
  deriving Repr, DecidableEq

/-- `loadReports` (`safetyReports.js`, lines 50–60): if the file exists,
read and parse it; on any thrown error the `catch` logs and falls through;
in every non-success case the function returns `[]`. -/
def loadReports (m : Medium) : List SafetyReport :=
  match m with
  | .stored reports => reports
  | .corrupt => []
  | .unreadable => []
  | .absent => []

/-- `saveReports` (`safetyReports.js`, lines 65–73): write the full
serialized array over the file, returning `true`; a thrown write error is
caught, logged, and `false` is returned with the file unchanged. -/
def saveReports (reports : List SafetyReport) (w : FsWrite) (m : Medium) :
    Bool × Medium :=
  match w with
  | .ok => (true, .stored reports)
  | .err => (false, m)

/-- Allowed tag values (`safetyReports.js`, lines 36–44). -/
def ALLOWED_TAGS : List String :=
  ["Harassment", "Welcoming", "Police Presence", "Protest", "Crowded",
   "Quiet", "Other"]

/-- `getAllowedTags` (`safetyReports.js`, lines 155–157). -/
def getAllowedTags : List String := ALLOWED_TAGS

/-- Decimal rendering of a natural number, as JavaScript template
interpolation renders `Date.now()`. -/
def natToDecimalString (n : Nat) : String :=
  if n = 0 then "0" else ⟨((Nat.digits 10 n).map Nat.digitChar).reverse⟩

/-- `generateReportId` (`safetyReports.js`, lines 78–80):
```report_${Date.now()}_${Math.random().toString(36).substr(2, 9)}``` —
the clock reading and the drawn random suffix are explicit parameters. -/
def generateReportId (nowMs : Nat) (randSuffix : String) : String :=
  "report_" ++ natToDecimalString nowMs ++ "_" ++ randSuffix

/-- The object literal built inside `createReport`
(`safetyReports.js`, lines 91–101), given the generated id and the clock
reading used for `new Date().toISOString()`. -/
def mkNewReport (d : ReportData) (newId : String) (now : Nat) : SafetyReport :=
  { _id := newId
    location := { type := "Point", coordinates := (d.longitude, d.latitude) }
    safetyScore := d.safetyScore
    tags := d.tags.getD []
    comment := d.comment.getD ""
    timestamp := now }

/-- `createReport` (`safetyReports.js`, lines 88–107): load the current
array, push the new record, save, and return the new record.  The boolean
result of `saveReports` is discarded, exactly as in the source. -/
def createReport (d : ReportData) (newId : String) (now : Nat)
    (w : FsWrite) (m : Medium) : SafetyReport × Medium :=
  let reports := loadReports m
  let newReport := mkNewReport d newId now
  let reports' := reports ++ [newReport]
  let (_ok, m') := saveReports reports' w m
  (newReport, m')

/-- Optional filters accepted by `getReports` (`minDate`/`maxDate`). -/
structure Filters where
  minDate : Option Nat
  maxDate : Option Nat
  deriving Repr, DecidableEq

/-- `getReports` (`safetyReports.js`, lines 115–132): load, then apply the
`minDate` filter (`r.timestamp >= filters.minDate`) and the `maxDate`
filter (`r.timestamp <= filters.maxDate`) when present. -/
def getReports (f : Filters) (m : Medium) : List SafetyReport :=
  let reports := loadReports m
  let fr := reports
  let fr := match f.minDate with
    | some d => fr.filter (fun r => decide (d ≤ r.timestamp))
    | none => fr
  let fr := match f.maxDate with
    | some d => fr.filter (fun r => decide (r.timestamp ≤ d))
    | none => fr
  fr

/-- `getReportsInBounds` (`safetyReports.js`, lines 143–150): load, then
keep reports whose `[lon, lat]` coordinates satisfy
`lat >= minLat && lat <= maxLat && lon >= minLon && lon <= maxLon`. -/
def getReportsInBounds (minLat maxLat minLon maxLon : Rat) (m : Medium) :
    List SafetyReport :=
  (loadReports m).filter (fun report =>
    let lon := report.location.coordinates.1
    let lat := report.location.coordinates.2
    decide (minLat ≤ lat) && decide (lat ≤ maxLat) &&
      decide (minLon ≤ lon) && decide (lon ≤ maxLon))

/-! ## Serialized shape of a stored record

`JSON.stringify` serializes an object literal's own enumerable fields in
insertion order; the key list below is exactly the field order of the
object literal in `createReport`. -/

/-- JSON values, to express what serializing a report produces. -/
inductive JsonValue where
  | str : String → JsonValue
  | num : Rat → JsonValue
  | arr : List JsonValue → JsonValue
  | obj : List (String × JsonValue) → JsonValue

/-- Serialization of a `SafetyReport`, field for field and in the insertion
order of the object literal in `createReport`.  The timestamp is serialized
as its ISO string; only its identity matters here, so it is carried as the
numeric clock value. -/
def serializeReport (r : SafetyReport) : List (String × JsonValue) :=
  [("_id", .str r._id),
   ("location", .obj
      [("type", .str r.location.type),
       ("coordinates", .arr [.num r.location.coordinates.1,
                             .num r.location.coordinates.2])]),
   ("safetyScore", .num r.safetyScore),
   ("tags", .arr (r.tags.map .str)),
   ("comment", .str r.comment),
   ("timestamp", .num r.timestamp)]

/-- Field names that would carry the submitter's network identity, account
identifier, or device identifier (the schema note at `safetyReports.js`
line 32 names `userId`, `email`, and IP address). -/
def identityFieldNames : List String :=
  ["userId", "accountId", "email", "ip", "ipAddress", "deviceId"]

/-! ## Sequences of appends -/

/-- The per-call environment of one `createReport` invocation: the
generated id and the clock reading. -/
structure AppendInput where
  data : ReportData
  newId : String
  now : Nat
  deriving Repr, DecidableEq

/-- Run a sequence of `createReport` calls, each with a successful durable
write, threading the medium; returns the created records and the final
medium. -/
def runAppends (inputs : List AppendInput) (m : Medium) :
    List SafetyReport × Medium :=
  match inputs with
  | [] => ([], m)
  | i :: rest =>
      let (r, m') := createReport i.data i.newId i.now .ok m
      let (rs, m'') := runAppends rest m'
      (r :: rs, m'')

end SafeTravels

namespace SafeTravels.RateLimiter

/-! ## Rate limiter

The repository's server route applies the rate limit (the client in
`SafetyReportModal.js` handles its HTTP 429 `Too Many Reports` response),
but the route file is not under `src/`. -/

/-- Modelled from the spec: `RateLimitWindow` (spec §3), the ephemeral
per-identity window record, with `count` and `windowStart`. -/
structure RateLimitWindow where
  count : Nat
  windowStart : Nat
  deriving Repr, DecidableEq

/-- Modelled from the spec: the window length W, default 1 hour. -/
def W : Nat := 3600000

/-- Modelled from the spec: the quota Q, default 3. -/
def Q : Nat := 3

/-- The limiter's state: the window map, keyed by submitter identity.
Insertion conses; `List.lookup` finds the most recent binding. -/
def LimiterState : Type := List (String × RateLimitWindow)

/-- Modelled from the spec: `checkAndRecord(identity, now)` (spec §4.2),
which is not under `src/`.  Fixed window: if no window exists for the
identity or `now - windowStart ≥ W`, start a fresh window with count 1 and
allow; otherwise allow with an incremented count iff the new count is at
most Q, and on rejection return Throttled without changing the count
(idempotent rejection).  `true` is Allowed, `false` is Throttled. -/
def checkAndRecord (identity : String) (now : Nat) (st : LimiterState) :
    Bool × LimiterState :=
  match st.lookup identity with
  | none => (true, (identity, ⟨1, now⟩) :: st)
  | some w =>
      if W ≤ now - w.windowStart then
        (true, (identity, ⟨1, now⟩) :: st)
      else if w.count + 1 ≤ Q then
        (true, (identity, ⟨w.count + 1, w.windowStart⟩) :: st)
      else
        (false, st)

/-- Run a sequence of `checkAndRecord` calls for one identity at the given
times, collecting the Allowed/Throttled outcomes in order. -/
def runCalls (identity : String) (times : List Nat) (st : LimiterState) :
    List Bool × LimiterState :=
  match times with
  | [] => ([], st)
  | t :: ts =>
      let (b, st') := checkAndRecord identity t st
      let (bs, st'') := runCalls identity ts st'
      (b :: bs, st'')

end SafeTravels.RateLimiter

namespace SafeTravels

/-! ## Validator and ingestion

The repository's server route validates submissions before handing them to
the store (`createReport`'s contract says `reportData` is already
validated), but the route/validator file is not under `src/`. -/

/-- Tag-stripping state machine over the comment's characters: outside a
markup construct, a `<` opens one and is dropped; inside, everything up to
and including the closing `>` is dropped; all other characters are kept. -/
def stripMarkupAux : Bool → List Char → List Char
  | _, [] => []
  | false, c :: cs =>
      if c = '<' then stripMarkupAux true cs else c :: stripMarkupAux false cs
  | true, c :: cs =>
      if c = '>' then stripMarkupAux false cs else stripMarkupAux true cs

/-- Modelled from the spec: the Validator's sanitization (spec §4.1 check 4
and Glossary), which is not under `src/`: removal (not mere escaping) of
all markup/tag-like sequences, keeping the remaining plain text. -/
def stripMarkup (s : String) : String :=
  ⟨stripMarkupAux false s.data⟩

/-- Modelled from the spec: the Validator's comment check (spec §4.1 check
4), not under `src/`: the comment, after stripping markup, must have length
at most 280; the sanitized text is what gets stored. -/
def validateComment (comment : String) : Option String :=
  if (stripMarkup comment).length ≤ 280 then some (stripMarkup comment)
  else none

/-- A raw submission as received by the route (`POST /api/reports` body). -/
structure RawSubmission where
  latitude : Rat
  longitude : Rat
  safetyScore : Int
  tags : List String
  comment : String
  deriving Repr, DecidableEq

/-- Modelled from the spec: the Validator's typed errors (spec §4.1), in
check order. -/
inductive ValidationError where
  | locationError
  | scoreError
  | tagError
  | commentError
  deriving Repr, DecidableEq

/-- Modelled from the spec: `validate(rawInput)` (spec §4.1), not under
`src/`.  Checks in order, first failure wins: coordinate bounds, score
range, tag membership in the Tag Catalog (unknown tags rejected outright,
never dropped), then the sanitized-comment length; on success produces the
normalized payload handed to the store. -/
def validate (raw : RawSubmission) : Except ValidationError ReportData :=
  if ¬ (-90 ≤ raw.latitude ∧ raw.latitude ≤ 90 ∧
        -180 ≤ raw.longitude ∧ raw.longitude ≤ 180) then
    .error .locationError
  else if ¬ (1 ≤ raw.safetyScore ∧ raw.safetyScore ≤ 5) then
    .error .scoreError
  else if ¬ raw.tags.all (fun t => ALLOWED_TAGS.contains t) then
    .error .tagError
  else
    match validateComment raw.comment with
    | none => .error .commentError
    | some s =>
        .ok { latitude := raw.latitude, longitude := raw.longitude,
              safetyScore := raw.safetyScore, tags := some raw.tags,
              comment := some s }

/-- Modelled from the spec: the Ingestion Endpoint's orchestration (spec
§4.4), not under `src/`: validate, and only on success append via the
store; on a validation failure return the error with the store untouched. -/
def ingestSubmission (raw : RawSubmission) (newId : String) (now : Nat)
    (w : FsWrite) (m : Medium) :
    Except ValidationError SafetyReport × Medium :=
  match validate raw with
  | .error e => (.error e, m)
  | .ok d =>
      let (r, m') := createReport d newId now w m
      (.ok r, m')

/-- The time-range condition of the claim: the report's timestamp lies
within the inclusive `minDate`/`maxDate` bounds, each applied only when
present. -/
def matchesTimeRange (f : Filters) (r : SafetyReport) : Bool :=
  (match f.minDate with
    | some d => decide (d ≤ r.timestamp)
    | none => true) &&
  (match f.maxDate with
    | some d => decide (r.timestamp ≤ d)
    | none => true)

/-- The bounding-box condition of the claim: latitude in
`[minLat, maxLat]` and longitude in `[minLon, maxLon]`, all inclusive. -/
def inBoundingBox (minLat maxLat minLon maxLon : Rat) (r : SafetyReport) :
    Bool :=
  decide (minLat ≤ r.location.coordinates.2) &&
    decide (r.location.coordinates.2 ≤ maxLat) &&
    decide (minLon ≤ r.location.coordinates.1) &&
    decide (r.location.coordinates.1 ≤ maxLon)

/-- The validation gate of `handleSubmit`
(`SafetyReportModal.js`, lines 141–166): reject when no safety score is
selected, when no location was captured, or when `comment.length > 280`;
otherwise submit `(latitude, longitude, safetyScore, selectedTags,
comment.trim())`. -/
def handleSubmit (safetyScore : Option Int) (location : Option (Rat × Rat))
    (selectedTags : List String) (comment : String) : Option RawSubmission :=
  match safetyScore with
  | none => none
  | some score =>
      match location with
      | none => none
      | some loc =>
          if 280 < comment.length then none
          else some { latitude := loc.1, longitude := loc.2,
                      safetyScore := score, tags := selectedTags,
                      comment := comment.trim }

/-! ## Concrete data used by witnesses and counterexamples -/

/-- A concrete report input (the spec's end-to-end example, with the
coordinates rounded to keep kernel evaluation cheap). -/
def sampleData : ReportData :=
  { latitude := 43, longitude := -79, safetyScore := 3,
    tags := some ["Harassment", "Police Presence"],
    comment := some "Test report" }

/-- A second, different concrete report input. -/
def sampleData' : ReportData :=
  { latitude := 1, longitude := 2, safetyScore := 5,
    tags := some ["Quiet"], comment := some "calm" }

/-- A concrete run of three appends with non-decreasing clock readings. -/
def sampleRun : List AppendInput :=
  [⟨sampleData, "report_1_a", 1⟩, ⟨sampleData', "report_1_b", 1⟩,
   ⟨sampleData, "report_5_c", 5⟩]

/-- A markup-free comment of exactly 280 characters. -/
def plain280 : String := ⟨List.replicate 280 'a'⟩

/-- A markup-free comment of exactly 281 characters. -/
def plain281 : String := ⟨List.replicate 281 'a'⟩

/-- A concrete submission whose tag list holds a value outside the Tag
Catalog. -/
def rawBadTags : RawSubmission :=
  { latitude := 43, longitude := -79, safetyScore := 3,
    tags := ["Harassment", "FreePizza"], comment := "Test report" }

end SafeTravels

/-! ## Theorems -/

namespace SafeTravels

/-- `createReport` with a successful durable write, in closed form. -/
theorem createReport_ok (d : ReportData) (newId : String) (now : Nat)
    (m : Medium) :
    createReport d newId now .ok m =
      (mkNewReport d newId now,
       .stored (loadReports m ++ [mkNewReport d newId now])) := rfl

/-- The records returned by a run of successful appends are exactly the
constructed ones, in order. -/
theorem runAppends_fst (inputs : List AppendInput) (m : Medium) :
    (runAppends inputs m).1 =
      inputs.map (fun i => mkNewReport i.data i.newId i.now) := by
  induction inputs generalizing m with
  | nil => rfl
  | cons i rest ih => simp [runAppends, createReport_ok, ih]

/-- Reloading the medium after a run of successful appends yields the
prior contents followed by the appended records. -/
theorem loadReports_runAppends (inputs : List AppendInput) (m : Medium) :
    loadReports (runAppends inputs m).2 =
      loadReports m ++ (runAppends inputs m).1 := by
  induction inputs generalizing m with
  | nil => simp [runAppends]
  | cons i rest ih =>
      simp only [runAppends, createReport_ok]
      rw [ih]
      simp [loadReports]

/-- The serialized field names of any report, independent of its values. -/
theorem serializeReport_keys (r : SafetyReport) :
    (serializeReport r).map Prod.fst =
      ["_id", "location", "safetyScore", "tags", "comment", "timestamp"] :=
  rfl

/-- C1: every report built by `createReport` serializes to exactly the
fields `_id`, `location`, `safetyScore`, `tags`, `comment`, `timestamp`;
no identity-carrying field name (`userId`, `accountId`, `email`, `ip`,
`ipAddress`, `deviceId`) occurs among them; and every record persisted by
the call is either a previously stored record or the created one. -/
theorem claim_C1 (d : ReportData) (newId : String) (now : Nat)
    (w : FsWrite) (m : Medium) :
    (serializeReport (createReport d newId now w m).1).map Prod.fst =
      ["_id", "location", "safetyScore", "tags", "comment", "timestamp"]
    ∧ identityFieldNames.all (fun k =>
        !(((serializeReport (createReport d newId now w m).1).map
            Prod.fst).contains k)) = true
    ∧ ∀ r ∈ loadReports (createReport d newId now w m).2,
        r ∈ loadReports m ∨ r = (createReport d newId now w m).1 := by
  refine ⟨rfl, by rw [serializeReport_keys]; decide, ?_⟩
  cases w with
  | ok =>
      intro r hr
      simp only [createReport_ok, loadReports, List.mem_append,
        List.mem_singleton] at hr ⊢
      exact hr.imp id id
  | err =>
      intro r hr
      left
      exact hr

/-- Witness for C1 at concrete inputs: the record persisted by a concrete
`createReport` call on an empty store is the created record itself. -/
theorem claim_C1_witness :
    (createReport sampleData "report_7_a" 7 .ok .absent).1 ∈
        loadReports (createReport sampleData "report_7_a" 7 .ok .absent).2
    ∧ ((createReport sampleData "report_7_a" 7 .ok .absent).1 ∈
          loadReports Medium.absent
        ∨ (createReport sampleData "report_7_a" 7 .ok .absent).1 =
          (createReport sampleData "report_7_a" 7 .ok .absent).1) :=
  ⟨by decide,
   (claim_C1 sampleData "report_7_a" 7 .ok .absent).2.2 _ (by decide)⟩

/-- C2 counterexample: with a failing durable write, `createReport`
returns exactly the same value as with a successful one — the caller sees
an apparently successful append — while the created record is absent from
the durable medium.  The claimed "whole operation fails with no partial
success visible to the caller" is therefore false. -/
theorem claim_C2_counterexample :
    (createReport sampleData "report_7_a" 7 .err (.stored [])).1 =
      (createReport sampleData "report_7_a" 7 .ok (.stored [])).1
    ∧ (createReport sampleData "report_7_a" 7 .err (.stored [])).1 ∉
        loadReports (createReport sampleData "report_7_a" 7 .err
          (.stored [])).2 :=
  ⟨rfl, by decide⟩

/-- C2 (amended): a durable-write failure is swallowed: `saveReports`
returns `false` but `createReport` discards that result and still returns
the new record, so no failure is visible to the caller; the durable medium
is left at the pre-write snapshot on a failed write and at the post-write
snapshot on a successful one. -/
theorem claim_C2_amended (d : ReportData) (newId : String) (now : Nat)
    (m : Medium) :
    (createReport d newId now .err m).1 = mkNewReport d newId now
    ∧ (createReport d newId now .err m).2 = m
    ∧ (saveReports (loadReports m ++ [mkNewReport d newId now]) .err m).1 =
        false
    ∧ (createReport d newId now .ok m).2 =
        .stored (loadReports m ++ [mkNewReport d newId now]) :=
  ⟨rfl, rfl, rfl, rfl⟩

/-- C3: for every sequence of successful `createReport` calls, reloading
the store from the durable medium reproduces the prior contents followed
by exactly the appended records, and the appended records are exactly the
constructed ones — same ids and same field values; starting from an empty
medium the reloaded set is identical to the appended one. -/
theorem claim_C3 (inputs : List AppendInput) (m : Medium) :
    loadReports (runAppends inputs m).2 =
      loadReports m ++ (runAppends inputs m).1
    ∧ (runAppends inputs m).1 =
        inputs.map (fun i => mkNewReport i.data i.newId i.now)
    ∧ loadReports (runAppends inputs .absent).2 =
        (runAppends inputs .absent).1 := by
  refine ⟨loadReports_runAppends inputs m, runAppends_fst inputs m, ?_⟩
  have h := loadReports_runAppends inputs .absent
  simpa [loadReports] using h

/-- C10: `loadReports` is total over the medium's failure states — absent
file, unreadable file, and unparseable contents all yield the empty list
(so the store starts empty there), and the next successful save overwrites
whatever the file held; in particular a successful `createReport` from a
corrupt medium leaves exactly the new record stored. -/
theorem claim_C10 :
    (loadReports .absent = [] ∧ loadReports .unreadable = []
      ∧ loadReports .corrupt = [])
    ∧ (∀ (reports : List SafetyReport) (m : Medium),
        saveReports reports .ok m = (true, .stored reports))
    ∧ (∀ (d : ReportData) (newId : String) (now : Nat),
        (createReport d newId now .ok .corrupt).2 =
          .stored [mkNewReport d newId now]) :=
  ⟨⟨rfl, rfl, rfl⟩, fun _ _ => rfl, fun _ _ _ => rfl⟩

/-- C7: `getReports` returns exactly the stored reports whose timestamp
meets the inclusive `minDate`/`maxDate` bounds, and `getReportsInBounds`
returns exactly the stored reports whose latitude lies in
`[minLat, maxLat]` and longitude in `[minLon, maxLon]` — each stated both
as a single-pass filter equality and as an all-and-only membership
characterization. -/
theorem claim_C7 (f : Filters) (m : Medium)
    (minLat maxLat minLon maxLon : Rat) :
    getReports f m = (loadReports m).filter (matchesTimeRange f)
    ∧ getReportsInBounds minLat maxLat minLon maxLon m =
        (loadReports m).filter (inBoundingBox minLat maxLat minLon maxLon)
    ∧ (∀ r, r ∈ getReports f m ↔ r ∈ loadReports m
          ∧ (∀ d ∈ f.minDate, d ≤ r.timestamp)
          ∧ (∀ d ∈ f.maxDate, r.timestamp ≤ d))
    ∧ (∀ r, r ∈ getReportsInBounds minLat maxLat minLon maxLon m ↔
          r ∈ loadReports m ∧ minLat ≤ r.location.coordinates.2
            ∧ r.location.coordinates.2 ≤ maxLat
            ∧ minLon ≤ r.location.coordinates.1
            ∧ r.location.coordinates.1 ≤ maxLon) := by
  obtain ⟨minD, maxD⟩ := f
  refine ⟨?_, ?_, ?_, ?_⟩
  · cases minD with
    | none =>
        cases maxD with
        | none => exact (List.filter_eq_self.mpr fun a _ => rfl).symm
        | some dM =>
            exact List.filter_congr (fun a _ => by simp [matchesTimeRange])
    | some dm =>
        cases maxD with
        | none =>
            exact List.filter_congr (fun a _ => by simp [matchesTimeRange])
        | some dM =>
            simp only [getReports, List.filter_filter]
            exact List.filter_congr
              (fun a _ => by simp [matchesTimeRange, Bool.and_comm])
  · rfl
  · intro r
    cases minD <;> cases maxD <;>
      simp [getReports, List.mem_filter, and_assoc, and_comm, and_left_comm]
  · intro r
    simp [getReportsInBounds, List.mem_filter, and_assoc]

/-- Witness for C7 at concrete inputs: a concrete stored report inside the
bounds is in both query results. -/
theorem claim_C7_witness :
    mkNewReport sampleData "report_7_a" 7 ∈
        getReports ⟨some 5, some 10⟩
          (.stored [mkNewReport sampleData "report_7_a" 7])
    ∧ mkNewReport sampleData "report_7_a" 7 ∈
        getReportsInBounds 40 50 (-80) (-70)
          (.stored [mkNewReport sampleData "report_7_a" 7]) :=
  ⟨((claim_C7 ⟨some 5, some 10⟩
        (.stored [mkNewReport sampleData "report_7_a" 7])
        40 50 (-80) (-70)).2.2.1 _).mpr
      ⟨by decide, by decide, by decide⟩,
   ((claim_C7 ⟨some 5, some 10⟩
        (.stored [mkNewReport sampleData "report_7_a" 7])
        40 50 (-80) (-70)).2.2.2 _).mpr
      ⟨by decide, by decide, by decide, by decide, by decide⟩⟩

/-- C9: the store assigns each appended report the clock reading of its
creation as its timestamp, so a run of appends driven by a non-decreasing
clock leaves the durable log's timestamps non-decreasing in append
order (ties allowed). -/
theorem claim_C9 (inputs : List AppendInput)
    (h : List.Chain' (· ≤ ·) (inputs.map (·.now))) :
    (loadReports (runAppends inputs .absent).2).map (·.timestamp) =
      inputs.map (·.now)
    ∧ List.Chain' (· ≤ ·)
        ((loadReports (runAppends inputs .absent).2).map (·.timestamp)) := by
  have key : (loadReports (runAppends inputs .absent).2).map (·.timestamp) =
      inputs.map (·.now) := by
    rw [loadReports_runAppends, runAppends_fst]
    simp [loadReports, List.map_map, Function.comp, mkNewReport]
  exact ⟨key, key ▸ h⟩

/-- Witness for C9 at a concrete run: three appends at clock readings
1, 1, 5 leave a durable log with non-decreasing timestamps. -/
theorem claim_C9_witness :
    List.Chain' (· ≤ ·) (sampleRun.map (·.now))
    ∧ List.Chain' (· ≤ ·)
        ((loadReports (runAppends sampleRun .absent).2).map (·.timestamp)) :=
  ⟨by simp [sampleRun, List.chain'_cons],
   (claim_C9 sampleRun (by simp [sampleRun, List.chain'_cons])).2⟩

end SafeTravels

namespace SafeTravels.RateLimiter

/-- C4: with quota `Q = 3` and window `W` = 1 hour, four submissions from
the same identity within `W` of the first are answered Allowed, Allowed,
Allowed, Throttled in submission order, and a fifth submission made once
`W` has elapsed since the first starts a fresh window and is Allowed
(spec-modelled limiter). -/
theorem claim_C4 (st : LimiterState) (identity : String)
    (t₁ t₂ t₃ t₄ t₅ : Nat)
    (h0 : st.lookup identity = none)
    (_h12 : t₁ ≤ t₂) (_h23 : t₂ ≤ t₃) (_h34 : t₃ ≤ t₄)
    (hw2 : t₂ - t₁ < W) (hw3 : t₃ - t₁ < W) (hw4 : t₄ - t₁ < W)
    (hw5 : W ≤ t₅ - t₁) :
    (runCalls identity [t₁, t₂, t₃, t₄] st).1 = [true, true, true, false]
    ∧ (runCalls identity [t₁, t₂, t₃, t₄, t₅] st).1 =
        [true, true, true, false, true] := by
  have n2 : ¬ (W ≤ t₂ - t₁) := Nat.not_le.mpr hw2
  have n3 : ¬ (W ≤ t₃ - t₁) := Nat.not_le.mpr hw3
  have n4 : ¬ (W ≤ t₄ - t₁) := Nat.not_le.mpr hw4
  refine ⟨?_, ?_⟩ <;>
    simp [runCalls, checkAndRecord, h0, List.lookup, n2, n3, n4, hw5, Q]

/-- Witness for C4 at concrete inputs: submissions at 0, 1, 2, 3 and then
at 3600000 milliseconds from a fresh limiter. -/
theorem claim_C4_witness :
    (runCalls "198.51.100.7" [0, 1, 2, 3] []).1 =
      [true, true, true, false]
    ∧ (runCalls "198.51.100.7" [0, 1, 2, 3, 3600000] []).1 =
        [true, true, true, false, true] :=
  claim_C4 [] "198.51.100.7" 0 1 2 3 3600000 rfl (by decide) (by decide)
    (by decide) (by decide) (by decide) (by decide) (by decide)

end SafeTravels.RateLimiter

namespace SafeTravels

/-- C5: any submission whose tag sequence holds a value outside the Tag
Catalog is rejected by validation with an error, and the durable medium is
untouched — no report is stored and no valid subset of the tags is
accepted. -/
theorem claim_C5 (raw : RawSubmission) (newId : String) (now : Nat)
    (w : FsWrite) (m : Medium)
    (h : ∃ t ∈ raw.tags, t ∉ ALLOWED_TAGS) :
    (∃ e, (ingestSubmission raw newId now w m).1 = .error e)
    ∧ (ingestSubmission raw newId now w m).2 = m := by
  obtain ⟨t, ht, hnot⟩ := h
  have hall : ¬ raw.tags.all (fun t => ALLOWED_TAGS.contains t) = true := by
    intro hcontra
    exact hnot (by simpa using List.all_eq_true.mp hcontra t ht)
  have hval : ∃ e, validate raw = .error e := by
    unfold validate
    by_cases h1 : (-90 ≤ raw.latitude ∧ raw.latitude ≤ 90 ∧
        -180 ≤ raw.longitude ∧ raw.longitude ≤ 180)
    · rw [if_neg (not_not_intro h1)]
      by_cases h2 : (1 ≤ raw.safetyScore ∧ raw.safetyScore ≤ 5)
      · rw [if_neg (not_not_intro h2), if_pos hall]
        exact ⟨_, rfl⟩
      · rw [if_pos h2]
        exact ⟨_, rfl⟩
    · rw [if_pos h1]
      exact ⟨_, rfl⟩
  obtain ⟨e, he⟩ := hval
  unfold ingestSubmission
  rw [he]
  exact ⟨⟨e, rfl⟩, rfl⟩

/-- Witness for C5 at a concrete submission containing the unknown tag
`FreePizza`: validation errors out and an empty store stays empty. -/
theorem claim_C5_witness :
    (∃ e, (ingestSubmission rawBadTags "report_7_a" 7 .ok .absent).1 =
        .error e)
    ∧ (ingestSubmission rawBadTags "report_7_a" 7 .ok .absent).2 =
        .absent :=
  claim_C5 rawBadTags "report_7_a" 7 .ok .absent
    ⟨"FreePizza", by decide, by decide⟩

/-- No `<` survives the tag-stripping state machine. -/
theorem stripMarkupAux_no_open :
    ∀ (l : List Char) (b : Bool), '<' ∉ stripMarkupAux b l
  | [], b => by simp [stripMarkupAux]
  | c :: cs, true => by
      simp only [stripMarkupAux]
      split
      · exact stripMarkupAux_no_open cs false
      · exact stripMarkupAux_no_open cs true
  | c :: cs, false => by
      simp only [stripMarkupAux]
      split
      · exact stripMarkupAux_no_open cs true
      · intro hmem
        rcases List.mem_cons.mp hmem with h | h
        · rename_i hc; exact hc h.symm
        · exact stripMarkupAux_no_open cs false h

/-- The state machine keeps markup-free text unchanged. -/
theorem stripMarkupAux_of_no_open :
    ∀ (l : List Char), '<' ∉ l → stripMarkupAux false l = l
  | [], _ => rfl
  | c :: cs, h => by
      have hc : ¬ c = '<' := fun e => h (e ▸ List.mem_cons_self c cs)
      simp only [stripMarkupAux, if_neg hc]
      rw [stripMarkupAux_of_no_open cs fun hm => h (List.mem_cons_of_mem c hm)]

/-- C6: every comment accepted by validation is stored as its sanitized
text, which holds no `<` (markup/tag-like sequences removed, with
markup-free text kept verbatim, not blanked) and has length at most 280; a
comment whose sanitized length is exactly 280 is accepted and one whose
sanitized length is 281 is rejected; and the client-side gate in
`handleSubmit` rejects any raw comment longer than 280 characters. -/
theorem claim_C6 :
    (∀ c : String, '<' ∉ (stripMarkup c).data)
    ∧ (∀ c : String, '<' ∉ c.data → stripMarkup c = c)
    ∧ (∀ c s : String, validateComment c = some s →
        s = stripMarkup c ∧ s.length ≤ 280)
    ∧ (∀ c : String, (stripMarkup c).length = 280 →
        validateComment c = some (stripMarkup c))
    ∧ (∀ c : String, (stripMarkup c).length = 281 →
        validateComment c = none)
    ∧ (∀ (score : Option Int) (loc : Option (Rat × Rat))
         (tags : List String) (c : String), 280 < c.length →
        handleSubmit score loc tags c = none) := by
  refine ⟨?_, ?_, ?_, ?_, ?_, ?_⟩
  · intro c
    exact stripMarkupAux_no_open c.data false
  · intro c h
    show String.mk (stripMarkupAux false c.data) = c
    rw [stripMarkupAux_of_no_open c.data h]
  · intro c s h
    unfold validateComment at h
    by_cases hle : (stripMarkup c).length ≤ 280
    · rw [if_pos hle] at h
      cases h
      exact ⟨rfl, hle⟩
    · rw [if_neg hle] at h
      exact absurd h (by simp)
  · intro c h
    unfold validateComment
    rw [if_pos (by omega)]
  · intro c h
    unfold validateComment
    rw [if_neg (by omega)]
  · intro score loc tags c h
    cases score with
    | none => rfl
    | some s =>
        cases loc with
        | none => rfl
        | some l => simp [handleSubmit, h]

set_option maxRecDepth 4000 in
/-- Witness for C6 at concrete comments: embedded markup is removed while
plain text survives, a sanitized length of exactly 280 is accepted, 281 is
rejected, and `handleSubmit` rejects a raw 281-character comment. -/
theorem claim_C6_witness :
    stripMarkup "hello" = "hello"
    ∧ (("ac" : String) = stripMarkup "a<b>c" ∧ ("ac" : String).length ≤ 280)
    ∧ validateComment plain280 = some (stripMarkup plain280)
    ∧ validateComment plain281 = none
    ∧ handleSubmit (some 3) (some (0, 0)) [] plain281 = none :=
  ⟨claim_C6.2.1 "hello" (by decide),
   claim_C6.2.2.1 "a<b>c" "ac" (by decide),
   claim_C6.2.2.2.1 plain280 (by decide),
   claim_C6.2.2.2.2.1 plain281 (by decide),
   claim_C6.2.2.2.2.2 (some 3) (some (0, 0)) [] plain281 (by decide)⟩

/-- `Nat.digitChar` is injective on decimal digits. -/
theorem digitChar_inj_lt :
    ∀ a : Nat, a < 10 → ∀ b : Nat, b < 10 →
      Nat.digitChar a = Nat.digitChar b → a = b := by decide

/-- Decimal digit characters are never an underscore. -/
theorem digitChar_ne_underscore :
    ∀ a : Nat, a < 10 → Nat.digitChar a ≠ '_' := by decide

/-- Mapping `Nat.digitChar` over decimal-digit lists is injective. -/
theorem map_digitChar_inj :
    ∀ (l₁ l₂ : List Nat), (∀ d ∈ l₁, d < 10) → (∀ d ∈ l₂, d < 10) →
      l₁.map Nat.digitChar = l₂.map Nat.digitChar → l₁ = l₂ := by
  intro l₁
  induction l₁ with
  | nil =>
      intro l₂ _ _ h
      cases l₂ with
      | nil => rfl
      | cons b bs => simp at h
  | cons a as ih =>
      intro l₂ h₁ h₂ h
      cases l₂ with
      | nil => simp at h
      | cons b bs =>
          simp only [List.map_cons, List.cons.injEq] at h
          have ha : a = b :=
            digitChar_inj_lt a (h₁ a (List.mem_cons_self a as))
              b (h₂ b (List.mem_cons_self b bs)) h.1
          have hs : as = bs :=
            ih bs (fun d hd => h₁ d (List.mem_cons_of_mem a hd))
              (fun d hd => h₂ d (List.mem_cons_of_mem b hd)) h.2
          rw [ha, hs]

/-- The decimal rendering of a natural number determines the number. -/
theorem natToDecimalString_inj (n m : Nat)
    (h : natToDecimalString n = natToDecimalString m) : n = m := by
  have digits_of_mk :
      ∀ k j : Nat, k ≠ 0 → j ≠ 0 →
        (⟨((Nat.digits 10 k).map Nat.digitChar).reverse⟩ : String) =
          ⟨((Nat.digits 10 j).map Nat.digitChar).reverse⟩ → k = j := by
    intro k j _ _ hkj
    have hdata : ((Nat.digits 10 k).map Nat.digitChar).reverse =
        ((Nat.digits 10 j).map Nat.digitChar).reverse := by
      injection hkj
    have hmap := List.reverse_injective hdata
    have hdig := map_digitChar_inj _ _
      (fun d hd => Nat.digits_lt_base (by norm_num) hd)
      (fun d hd => Nat.digits_lt_base (by norm_num) hd) hmap
    have := congrArg (Nat.ofDigits 10) hdig
    rwa [Nat.ofDigits_digits, Nat.ofDigits_digits] at this
  have zero_case :
      ∀ j : Nat, j ≠ 0 →
        ("0" : String) =
          ⟨((Nat.digits 10 j).map Nat.digitChar).reverse⟩ → False := by
    intro j hj hzj
    have hdata : ['0'] = ((Nat.digits 10 j).map Nat.digitChar).reverse := by
      have h0 : ("0" : String).data = ['0'] := rfl
      have := congrArg String.data hzj
      rwa [h0] at this
    have hmap : (Nat.digits 10 j).map Nat.digitChar = ['0'] := by
      have := congrArg List.reverse hdata
      simpa using this.symm
    have hdig : Nat.digits 10 j = [0] := by
      refine map_digitChar_inj _ [0]
        (fun d hd => Nat.digits_lt_base (by norm_num) hd) ?_ ?_
      · intro d hd
        simp only [List.mem_singleton] at hd
        omega
      · simpa using hmap
    have := congrArg (Nat.ofDigits 10) hdig
    rw [Nat.ofDigits_digits] at this
    simp [Nat.ofDigits] at this
    exact hj this
  unfold natToDecimalString at h
  by_cases hn : n = 0 <;> by_cases hm : m = 0
  · rw [hn, hm]
  · rw [if_pos hn, if_neg hm] at h
    exact absurd h (fun hc => zero_case m hm hc)
  · rw [if_neg hn, if_pos hm] at h
    exact absurd h.symm (fun hc => zero_case n hn hc)
  · rw [if_neg hn, if_neg hm] at h
    exact digits_of_mk n m hn hm h

/-- The decimal rendering of a natural number holds no underscore. -/
theorem natToDecimalString_no_underscore (n : Nat) :
    '_' ∉ (natToDecimalString n).data := by
  unfold natToDecimalString
  by_cases hn : n = 0
  · rw [if_pos hn]
    decide
  · rw [if_neg hn]
    intro hmem
    simp only [List.mem_reverse, List.mem_map] at hmem
    obtain ⟨d, hd, hchar⟩ := hmem
    exact digitChar_ne_underscore d (Nat.digits_lt_base (by norm_num) hd) hchar

/-- Splitting at an underscore that occurs in neither left part is
unambiguous. -/
theorem append_underscore_cancel :
    ∀ (a₁ a₂ b₁ b₂ : List Char), '_' ∉ a₁ → '_' ∉ a₂ →
      a₁ ++ '_' :: b₁ = a₂ ++ '_' :: b₂ → a₁ = a₂ ∧ b₁ = b₂ := by
  intro a₁
  induction a₁ with
  | nil =>
      intro a₂ b₁ b₂ _ h₂ h
      cases a₂ with
      | nil => simpa using h
      | cons c cs =>
          exfalso
          simp only [List.nil_append, List.cons_append,
            List.cons.injEq] at h
          exact h₂ (h.1 ▸ List.mem_cons_self c cs)
  | cons c cs ih =>
      intro a₂ b₁ b₂ h₁ h₂ h
      cases a₂ with
      | nil =>
          exfalso
          simp only [List.nil_append, List.cons_append,
            List.cons.injEq] at h
          exact h₁ (h.1 ▸ List.mem_cons_self c cs)
      | cons d ds =>
          simp only [List.cons_append, List.cons.injEq] at h
          have := ih ds b₁ b₂
            (fun hm => h₁ (List.mem_cons_of_mem c hm))
            (fun hm => h₂ (List.mem_cons_of_mem d hm)) h.2
          exact ⟨by rw [h.1, this.1], this.2⟩

/-- Reversing a list that ends in an underscore-separated suffix. -/
theorem reverse_append_underscore (u r : List Char) :
    (u ++ '_' :: r).reverse = r.reverse ++ '_' :: u.reverse := by
  simp [List.reverse_append]

/-- `generateReportId` is injective in its clock reading and random
suffix, provided the suffixes hold no underscore (as the base-36 suffixes
drawn by `Math.random().toString(36).substr(2, 9)` do not). -/
theorem generateReportId_inj (t₁ t₂ : Nat) (r₁ r₂ : String)
    (h₁ : '_' ∉ r₁.data) (h₂ : '_' ∉ r₂.data)
    (h : generateReportId t₁ r₁ = generateReportId t₂ r₂) :
    t₁ = t₂ ∧ r₁ = r₂ := by
  have hd := congrArg String.data h
  simp only [generateReportId, String.data_append] at hd
  have e : ∀ (u r : List Char), u ++ "_".data ++ r = u ++ '_' :: r := by
    intro u r
    rw [List.append_assoc]
    rfl
  rw [e, e] at hd
  have hrev := congrArg List.reverse hd
  rw [reverse_append_underscore, reverse_append_underscore] at hrev
  have step := append_underscore_cancel _ _ _ _
    (fun hm => h₁ (List.mem_reverse.mp hm))
    (fun hm => h₂ (List.mem_reverse.mp hm)) hrev
  have hr : r₁ = r₂ := String.ext (List.reverse_injective step.1)
  have hu : "report_".data ++ (natToDecimalString t₁).data =
      "report_".data ++ (natToDecimalString t₂).data :=
    List.reverse_injective step.2
  have hA : natToDecimalString t₁ = natToDecimalString t₂ :=
    String.ext (List.append_cancel_left hu)
  exact ⟨natToDecimalString_inj _ _ hA, hr⟩

/-- C8 counterexample: the id generator does not guarantee uniqueness —
two distinct `createReport` calls (here with different report data and
different stores) whose clock readings fall in the same millisecond and
whose random draws coincide produce reports with the same id. -/
theorem claim_C8_counterexample :
    sampleData ≠ sampleData'
    ∧ (createReport sampleData
        (generateReportId 1700000000000 "k3j9q0p1z") 1700000000000
        .ok .absent).1._id =
      (createReport sampleData'
        (generateReportId 1700000000000 "k3j9q0p1z") 1700000000000
        .ok (.stored [])).1._id :=
  ⟨by decide, rfl⟩

/-- C8 (amended): ids generated by `generateReportId` are distinct
whenever the two calls differ in their millisecond clock reading or in
their drawn random suffix (the suffixes, drawn from base-36 digits,
hold no underscore); the generator does not by itself rule out a
same-millisecond collision of the random draws. -/
theorem claim_C8_amended (t₁ t₂ : Nat) (r₁ r₂ : String)
    (h₁ : '_' ∉ r₁.data) (h₂ : '_' ∉ r₂.data)
    (hne : (t₁, r₁) ≠ (t₂, r₂)) :
    generateReportId t₁ r₁ ≠ generateReportId t₂ r₂ := by
  intro h
  obtain ⟨ht, hr⟩ := generateReportId_inj t₁ t₂ r₁ r₂ h₁ h₂ h
  exact hne (by rw [ht, hr])

/-- Witness for C8 at concrete inputs: ids generated one millisecond
apart with the same suffix differ. -/
theorem claim_C8_witness :
    ('_' ∉ ("k3j9q0p1z" : String).data)
    ∧ generateReportId 1700000000000 "k3j9q0p1z" ≠
        generateReportId 1700000000001 "k3j9q0p1z" :=
  ⟨by decide,
   claim_C8_amended 1700000000000 1700000000001 "k3j9q0p1z" "k3j9q0p1z"
     (by decide) (by decide) (by decide)⟩

end SafeTravels
